import Mathlib

/-!
Verification development for the aard-tools article-processing pipeline
(`aardtools/wiki.py` and `aardtools/mwaardhtmlwriter.py`).

The Python code is shallowly embedded: raw article text is a list of
characters (`PyStr`), dictionaries are association lists that keep
insertion order (as Python dicts do), exceptions are `Except` results,
and the external collaborators (cdb reader, mwlib parser, namespace
handler, regex filters, worker pool) are parameters of the embedded
functions.  The worker-pool batch scheduler `parse_mp` is embedded as a
deterministic run function over an explicit article stream, with the
delivery order of the unordered result iterator given by a schedule
parameter.
-/

set_option linter.unusedVariables false

instance {ε α : Type} [DecidableEq ε] [DecidableEq α] : DecidableEq (Except ε α) := fun x y =>
  match x, y with
  | .ok a, .ok b =>
    if h : a = b then isTrue (by rw [h]) else isFalse (fun hh => by cases hh; exact h rfl)
  | .error a, .error b =>
    if h : a = b then isTrue (by rw [h]) else isFalse (fun hh => by cases hh; exact h rfl)
  | .ok _, .error _ => isFalse (fun hh => by cases hh)
  | .error _, .ok _ => isFalse (fun hh => by cases hh)

/-- Raw wiki text, as a sequence of characters (Python unicode string). -/
abbrev PyStr := List Char

/-- Helper to write character-list literals from string literals. -/
def pystr (s : String) : PyStr := s.toList

/-- Python `str.find`: least index at which `needle` occurs in the haystack,
`none` standing for Python's `-1`. -/
def strFind (needle : PyStr) : PyStr → Option Nat
  | [] => if needle.isEmpty then some 0 else none
  | c :: cs => if needle.isPrefixOf (c :: cs) then some 0 else (strFind needle cs).map (· + 1)

/-- The `[[` delimiter searched for by `parse_redirect`. -/
def obrk : PyStr := ['[', '[']

/-- The `]]` delimiter searched for by `parse_redirect`. -/
def cbrk : PyStr := [']', ']']

/-- Python `str.upper`, character by character. -/
def pyUpper (s : PyStr) : PyStr := s.map Char.toUpper

/-- The alias test of `parse_redirect`:
`text.startswith(alias) or text.upper().startswith(alias)`. -/
def aliasMatches (a text : PyStr) : Bool :=
  a.isPrefixOf text || a.isPrefixOf (pyUpper text)

/-- Python `str.lstrip()`. -/
def pyLstrip (s : PyStr) : PyStr := s.dropWhile Char.isWhitespace

/-- The body `parse_redirect` runs for the first matching alias: strip the
alias and leading whitespace, locate the first `[[` and the first `]]`,
return the slice strictly between them; a missing delimiter raises
`BadRedirect` carrying the remainder text (the `Except.error` case). -/
def redirectOfAlias (a text : PyStr) : Except PyStr (Option PyStr) :=
  let t := pyLstrip (text.drop a.length)
  match strFind obrk t with
  | none => .error t
  | some b =>
    match strFind cbrk t with
    | none => .error t
    | some e => .ok (some ((t.drop (b + 2)).take (e - (b + 2))))

/-- `aardtools.wiki.parse_redirect`: try the aliases in order; the first
matching alias wins; no match returns `None` (`Except.ok none`). -/
def parse_redirect : List PyStr → PyStr → Except PyStr (Option PyStr)
  | [], _ => .ok none
  | a :: rest, text =>
    if aliasMatches a text then redirectOfAlias a text else parse_redirect rest text

/-- Python truthiness of a string: the empty string is falsy. -/
def pyTruthyStr (s : PyStr) : Bool := !s.isEmpty

/-- Python truthiness of `None`-or-string: `None` and `''` are falsy. -/
def pyTruthyOpt : Option PyStr → Bool
  | none => false
  | some s => pyTruthyStr s

/-- `Wiki.get_redirect`: parse the redirect and, when the parsed target is
truthy, qualify it with `nshandler.get_fqname` (the `fq` parameter). -/
def get_redirect (fq : PyStr → PyStr) (aliases : List PyStr) (text : PyStr) :
    Except PyStr (Option PyStr) :=
  match parse_redirect aliases text with
  | .error s => .error s
  | .ok r => .ok (if pyTruthyOpt r then r.map fq else r)

/-! ## mwaardhtmlwriter: class exclusion -/

/-- The module-level built-in exclusion set of `mwaardhtmlwriter`. -/
def EXCLUDE_CLASSES : List String :=
  ["navbox", "collapsible", "autocollapse", "plainlinksneverexpand", "navbar"]

/-- Worker for `pySplitWs`: the accumulator holds the current word,
reversed. -/
def splitWsAux : List Char → List Char → List String
  | [], acc => if acc.isEmpty then [] else [String.mk acc.reverse]
  | c :: cs, acc =>
    if c.isWhitespace then
      (if acc.isEmpty then [] else [String.mk acc.reverse]) ++ splitWsAux cs []
    else splitWsAux cs (c :: acc)

/-- Python `str.split()` with no argument: split on whitespace runs,
dropping empty pieces. -/
def pySplitWs (s : String) : List String := splitWsAux s.toList []

/-- The suppression test of `XHTMLWriter.xwriteTable` and
`XHTMLWriter.xwriteGenericElement`: some CSS class of the element is in
the built-in `EXCLUDE_CLASSES`.  When it holds the handler returns
`SkipChildren()` and neither the element nor any descendant is rendered. -/
def classExcluded (classAttr : String) : Bool :=
  (pySplitWs classAttr).any (fun c => EXCLUDE_CLASSES.contains c)

/-- Modelled from the spec for comparison: suppression against the union of
the built-in set and the configured `excluded_classes`. -/
def classExcludedSpec (cfgExcluded : List String) (classAttr : String) : Bool :=
  (pySplitWs classAttr).any (fun c => EXCLUDE_CLASSES.contains c || cfgExcluded.contains c)

/-- A generic element of the parsed document tree: a class attribute and
children, or a text leaf. -/
inductive MWNode where
  | text (s : String)
  | elem (classAttr : String) (children : List MWNode)

mutual

/-- The write pass restricted to generic elements: a node whose class list
meets `EXCLUDE_CLASSES` yields nothing (the `SkipChildren()` return of the
handler), otherwise its children are rendered. -/
def renderNode : MWNode → List String
  | .text s => [s]
  | .elem cls cs => if classExcluded cls then [] else renderForest cs

/-- Render a list of sibling nodes in order. -/
def renderForest : List MWNode → List String
  | [] => []
  | n :: ns => renderNode n ++ renderForest ns

end

/-! ## mwaardhtmlwriter: reference tracker

Python dicts keep insertion order, so they are embedded as association
lists; `alistGet`/`alistSet`/`alistPop` are `d[k]`, `d[k] = v` and
`d.pop(k)` (the last returning `none` where Python raises `KeyError`).
-/

/-- Ordered-dict lookup. -/
def alistGet {α : Type} : List (String × α) → String → Option α
  | [], _ => none
  | (k, v) :: rest, key => if k = key then some v else alistGet rest key

/-- Ordered-dict assignment: update in place, or append a new key. -/
def alistSet {α : Type} : List (String × α) → String → α → List (String × α)
  | [], key, v => [(key, v)]
  | (k, w) :: rest, key, v =>
    if k = key then (k, v) :: rest else (k, w) :: alistSet rest key v

/-- Ordered-dict `pop`: `none` models Python's `KeyError` (note that
`defaultdict.pop` does not consult the default factory). -/
def alistPop {α : Type} : List (String × α) → String → Option (α × List (String × α))
  | [], _ => none
  | (k, v) :: rest, key =>
    if k = key then some (v, rest)
    else
      match alistPop rest key with
      | none => none
      | some (w, rest2) => some (w, (k, v) :: rest2)

/-- A `<ref>` tree node as seen by the reference tracker: its `group`
attribute (default `''`) and its optional `name` attribute. -/
structure RefNode where
  group : String
  name : Option String
deriving DecidableEq

/-- The per-article reference state of `XHTMLWriter`: `references` maps a
group to its ordered reference list, `namedrefs` maps a group to a map
from named reference to (first-occurrence position, occurrence count). -/
structure WriterSt where
  references : List (String × List RefNode)
  namedrefs : List (String × List (String × Nat × Nat))
deriving DecidableEq

/-- The state of a freshly constructed `XHTMLWriter`. -/
def emptyWriterSt : WriterSt := ⟨[], []⟩

/-- `XHTMLWriter.mknoteid`. -/
def mknoteid (group : String) (num : Nat) : String :=
  "_n" ++ group ++ "_" ++ toString num

/-- Python `str.strip()`. -/
def pyStrip (s : String) : String :=
  String.mk (((s.toList.dropWhile Char.isWhitespace).reverse.dropWhile Char.isWhitespace).reverse)

/-- Python `str.rstrip()`. -/
def pyRstrip (s : String) : String :=
  String.mk ((s.toList.reverse.dropWhile Char.isWhitespace).reverse)

/-- The visible text of an inline reference marker. -/
def markerText (group : String) (num : Nat) : String :=
  "[" ++ pyStrip (group ++ " " ++ toString num) ++ "]"

/-- The `if ref_name:` test plus `ref_name.replace(' ', '_')`: an absent or
empty name is treated as unnamed. -/
def refNameOf (obj : RefNode) : Option String :=
  match obj.name with
  | none => none
  | some nm =>
    if nm = "" then none
    else some (String.mk (nm.toList.map (fun c => if c = ' ' then '_' else c)))

/-- The inline marker produced by `xwriteReference`: its sequence number,
note id, backlink id and visible text. -/
structure RefMarker where
  seq : Nat
  noteid : String
  refid : String
  textOut : String
deriving DecidableEq

/-- `XHTMLWriter.xwriteReference`: register one reference and emit its
inline marker.  Note that `self.references[group]` and
`self.namedrefs[group]` are defaultdict accesses and materialise their
key even on the paths that do not append. -/
def xwriteReference (st : WriterSt) (obj : RefNode) : RefMarker × WriterSt :=
  let group := obj.group
  let grefs := (alistGet st.references group).getD []
  match refNameOf obj with
  | some ref_name =>
    let gnamed := (alistGet st.namedrefs group).getD []
    match alistGet gnamed ref_name with
    | none =>
      let grefs2 := grefs ++ [obj]
      let first := grefs2.length
      let noteid := mknoteid group first
      let refid := "_r" ++ noteid ++ "_" ++ toString 0
      let gnamed2 := alistSet gnamed ref_name (first, 1)
      (⟨first, noteid, refid, markerText group first⟩,
       { references := alistSet st.references group grefs2,
         namedrefs := alistSet st.namedrefs group gnamed2 })
    | some (first, count) =>
      let noteid := mknoteid group first
      let refid := "_r" ++ noteid ++ "_" ++ toString count
      let gnamed2 := alistSet gnamed ref_name (first, count + 1)
      (⟨first, noteid, refid, markerText group first⟩,
       { references := alistSet st.references group grefs,
         namedrefs := alistSet st.namedrefs group gnamed2 })
  | none =>
    let grefs2 := grefs ++ [obj]
    let seq := grefs2.length
    let noteid := mknoteid group seq
    let refid := "_r" ++ noteid
    (⟨seq, noteid, refid, markerText group seq⟩,
     { references := alistSet st.references group grefs2,
       namedrefs := st.namedrefs })

/-- The outcome of `xwriteReferenceList`: nothing at all, or an ordered
list element with one item per collected reference (the item internals
are beyond what the claims need). -/
inductive RefListOut where
  | noOutput
  | olist (items : List RefNode)
deriving DecidableEq

/-- `XHTMLWriter.xwriteReferenceList`: if no references were collected at
all, return nothing; otherwise `self.references.pop(group)`, which raises
`KeyError` (`Except.error group`) when the group key is absent; an empty
popped list returns nothing; otherwise an ordered list is rendered and
the group's collected references are consumed. -/
def xwriteReferenceList (st : WriterSt) (group : String) :
    Except String (RefListOut × WriterSt) :=
  if st.references.isEmpty then .ok (.noOutput, st)
  else
    match alistPop st.references group with
    | none => .error group
    | some (refs, remaining) =>
      let st2 : WriterSt := { st with references := remaining }
      if refs.isEmpty then .ok (.noOutput, st2)
      else
        let gnamed := (alistGet st2.namedrefs group).getD []
        .ok (.olist refs, { st2 with namedrefs := alistSet st2.namedrefs group gnamed })

/-! ## wiki.py: the per-article conversion pipeline -/

/-- A language link extracted during rendering: (namespace, target). -/
abbrev LangLink := String × String

namespace Writer

/-- `mwaardhtmlwriter.convert`: run the write pass over the parsed tree
(abstracted by `render`, which yields the serialised text and the
collected language links) and return `(text, [], languagelinks)` — the
tag list in the returned triple is the literal empty list of the source. -/
def convert {τ : Type} (render : τ → String × List LangLink) (obj : τ) :
    String × List String × List LangLink :=
  let r := render obj
  (r.1, [], r.2)

end Writer

/-- The exceptions that can cross `convert`'s `try` block. -/
inductive PyExc where
  | emptyArticle (title : String)
  | convertError (title : String)
  | badRedirect (remainder : PyStr)
  | renderFailure (msg : String)
deriving DecidableEq

/-- A successful conversion result: the payload components serialised by
`tojson` plus the result-tuple fields. -/
structure ConvOk where
  title : String
  text : String
  tags : List String
  redirectTarget : Option PyStr
  isRedirect : Bool
  langlinks : List LangLink
  size : Nat
deriving DecidableEq

/-- `aardtools.wiki.mkredirect` (plus the appended size). -/
def mkredirect (title : String) (target : PyStr) (size : Nat) : ConvOk :=
  { title := title, text := "", tags := [], redirectTarget := some target,
    isRedirect := true, langlinks := [], size := size }

/-- The body of `convert`'s `try` block.  `reader` is the cdb reader
(`none` for an absent/`None` text), `sz` the stored size, `parseTree` the
external `uparser.parseString` (which may raise), `render` the write pass
of the article renderer, `filters` the composed `REGEX` text
substitutions. -/
def convertBody {τ : Type} (reader : String → Option PyStr) (sz : String → Nat)
    (aliases : List PyStr) (fq : PyStr → PyStr)
    (parseTree : String → PyStr → Except String τ)
    (render : τ → String × List LangLink)
    (filters : String → String) (title : String) : Except PyExc ConvOk :=
  match reader title with
  | none => .error (.emptyArticle title)
  | some text =>
    if text.isEmpty then .error (.emptyArticle title)
    else
      match get_redirect fq aliases text with
      | .error s => .error (.badRedirect s)
      | .ok rd =>
        if pyTruthyOpt rd then .ok (mkredirect title (rd.getD []) (sz title))
        else
          match parseTree title text with
          | .error m => .error (.renderFailure m)
          | .ok tree =>
            let r := Writer.convert render tree
            let txt := filters r.1
            .ok { title := title, text := pyRstrip txt, tags := r.2.1,
                  redirectTarget := none, isRedirect := false,
                  langlinks := r.2.2, size := sz title }

/-- `aardtools.wiki.convert`: the `try`/`except` wrapper — an
`EmptyArticleError` is re-raised as is, every other exception is replaced
by a uniform `ConvertError` carrying the title. -/
def convert {τ : Type} (reader : String → Option PyStr) (sz : String → Nat)
    (aliases : List PyStr) (fq : PyStr → PyStr)
    (parseTree : String → PyStr → Except String τ)
    (render : τ → String × List LangLink)
    (filters : String → String) (title : String) : Except PyExc ConvOk :=
  match convertBody reader sz aliases fq parseTree render filters title with
  | .ok r => .ok r
  | .error (.emptyArticle t) => .error (.emptyArticle t)
  | .error _ => .error (.convertError title)

/-- The render step exactly as it stands in the frozen source: `wiki.py`
line 119 invokes `writer.convert(mwobject, wikidb.rtl, wikidb.filters)`
with three arguments, while `mwaardhtmlwriter.convert` (line 287) takes a
single parameter, so the call itself raises `TypeError` before the
renderer body ever runs. -/
def writerConvertCallSrc {τ : Type} (obj : τ) :
    Except String (String × List String × List LangLink) :=
  .error "TypeError: convert() takes exactly 1 argument (3 given)"

/-- The body of `convert`'s `try` block with the render step of the
frozen source (`writerConvertCallSrc`): the fetch, empty-text and
redirect steps are as in `convertBody`, but the render call raises
`TypeError`, so the successful non-redirect path is unreachable. -/
def convertBodySrc {τ : Type} (reader : String → Option PyStr) (sz : String → Nat)
    (aliases : List PyStr) (fq : PyStr → PyStr)
    (parseTree : String → PyStr → Except String τ)
    (filters : String → String) (title : String) : Except PyExc ConvOk :=
  match reader title with
  | none => .error (.emptyArticle title)
  | some text =>
    if text.isEmpty then .error (.emptyArticle title)
    else
      match get_redirect fq aliases text with
      | .error s => .error (.badRedirect s)
      | .ok rd =>
        if pyTruthyOpt rd then .ok (mkredirect title (rd.getD []) (sz title))
        else
          match parseTree title text with
          | .error m => .error (.renderFailure m)
          | .ok tree =>
            match writerConvertCallSrc tree with
            | .error m => .error (.renderFailure m)
            | .ok r =>
              let txt := filters r.1
              .ok { title := title, text := pyRstrip txt, tags := r.2.1,
                    redirectTarget := none, isRedirect := false,
                    langlinks := r.2.2, size := sz title }

/-- `aardtools.wiki.convert` over the frozen source's render call: the
same `try`/`except` wrapper as `convert`, around `convertBodySrc`. -/
def convertSrc {τ : Type} (reader : String → Option PyStr) (sz : String → Nat)
    (aliases : List PyStr) (fq : PyStr → PyStr)
    (parseTree : String → PyStr → Except String τ)
    (filters : String → String) (title : String) : Except PyExc ConvOk :=
  match convertBodySrc reader sz aliases fq parseTree filters title with
  | .ok r => .ok r
  | .error (.emptyArticle t) => .error (.emptyArticle t)
  | .error _ => .error (.convertError title)

/-! ## wiki.py: the batch scheduler

`parse_mp` drives `convert` over the article stream through a worker
pool.  The embedding keeps the scheduler-visible semantics of
`multiprocessing.Pool`: `imap_unordered` hands the chunk iterator to the
pool, which consumes it eagerly; `next(timeout)` yields one result or
re-raises the worker's exception; when a consumed title hangs, every
other result is delivered first and then `next` raises `TimeoutError`;
after `pool.terminate()` the in-flight tasks are discarded and a new
`imap_unordered` over the same (now exhausted) `islice` iterator yields
nothing, so its first `next` raises `StopIteration`.
-/

/-- The pipeline outcome of one title, as observed by the scheduler:
a result tuple with its redirect flag, an `EmptyArticleError`, a
`ConvertError`, or a worker that never returns. -/
inductive TOut where
  | okA (redirect : Bool)
  | emptyA
  | convA
  | hangA
deriving DecidableEq

/-- One call reported to the Consumer. -/
inductive Ev where
  | added (title : String) (redirect : Bool)
  | emptyE (title : String)
  | failedE (title : String)
  | timedout (workers : Nat)
deriving DecidableEq

/-- The scheduler's mutable locals: the Consumer call log, the
`real_article_count`, and the `iter_count` of the current chunk round. -/
structure SchedSt where
  evs : List Ev
  realCount : Nat
  iterCount : Nat
deriving DecidableEq

/-- Scheduler configuration: `mp_chunk_size`, `requested_article_count`
(0 for the falsy "not set"), and the `active_children()` count reported
with a timeout. -/
structure MpCfg where
  chunkSize : Nat
  limit : Nat
  activeN : Nat
deriving DecidableEq

/-- The body run for one successfully retrieved result tuple: bump
`iter_count`; with a requested article count only non-redirects are
reported and counted, and reaching the limit terminates the pool and
returns (the `Bool` flag); without a limit every result is reported. -/
def stepResult (limit : Nat) (st : SchedSt) (t : String) (redirect : Bool) : SchedSt × Bool :=
  let st1 : SchedSt := { st with iterCount := st.iterCount + 1 }
  if limit = 0 then
    ({ st1 with evs := st1.evs ++ [.added t redirect] }, false)
  else
    if redirect then (st1, false)
    else
      let rc := st1.realCount + 1
      ({ st1 with realCount := rc, evs := st1.evs ++ [.added t redirect] }, decide (limit ≤ rc))

/-- Whether the worker processing `t` never returns. -/
def isHang (out : String → TOut) (t : String) : Bool :=
  match out t with
  | .hangA => true
  | _ => false

/-- Whether a result (or worker exception) for `t` is ever delivered. -/
def deliverable (out : String → TOut) (t : String) : Bool := !isHang out t

/-- The inner `while True` of `parse_mp`, folded over the sequence of
deliverable results of the current chunk: a result tuple runs
`stepResult` (returning early when it says so), an `EmptyArticleError`
reports an empty article, a `ConvertError` reports a failed article;
neither error path touches `iter_count`. -/
def runInner (out : String → TOut) (limit : Nat) : List String → SchedSt → SchedSt × Bool
  | [], st => (st, false)
  | t :: ts, st =>
    match out t with
    | .okA r =>
      let p := stepResult limit st t r
      if p.2 then (p.1, true) else runInner out limit ts p.1
    | .emptyA => runInner out limit ts { st with evs := st.evs ++ [.emptyE t] }
    | .convA => runInner out limit ts { st with evs := st.evs ++ [.failedE t] }
    | .hangA => runInner out limit ts st

/-- The outer `while True` of `parse_mp`.  Each round: stop when the
previous chunk produced no `iter_count` increment; otherwise slice the
next chunk off the stream, run the inner loop over the delivered results
(`sched` gives the arrival order of the unordered map), and, when a
consumed title hangs, report the timeout, recreate the pool and re-run
`imap_unordered` over the already exhausted chunk iterator — which
delivers nothing further, so the round ends.  Returns the final state,
whether the run returned early through the article-count limit, and the
titles consumed from the stream. -/
def runOuter (out : String → TOut) (sched : Nat → List String → List String) (cfg : MpCfg) :
    Nat → Nat → List String → SchedSt → SchedSt × Bool × List String
  | 0, _, _, st => (st, false, [])
  | fuel + 1, n, stream, st =>
    if st.iterCount = 0 then (st, false, [])
    else
      let c := stream.take cfg.chunkSize
      let rest := stream.drop cfg.chunkSize
      let st1 : SchedSt := { st with iterCount := 0 }
      let delivered := (sched n c).filter (deliverable out)
      let p := runInner out cfg.limit delivered st1
      if p.2 then (p.1, true, c)
      else
        let st2 : SchedSt :=
          if c.any (isHang out) then { p.1 with evs := p.1.evs ++ [.timedout cfg.activeN] }
          else p.1
        let q := runOuter out sched cfg fuel (n + 1) rest st2
        (q.1, q.2.1, c ++ q.2.2)

/-- `WikiParser.parse_mp` over an explicit article stream (the requested
slice), starting with `iter_count = 1` so that the first chunk is always
dispatched. -/
def parse_mp (out : String → TOut) (sched : Nat → List String → List String) (cfg : MpCfg)
    (stream : List String) : SchedSt × Bool × List String :=
  runOuter out sched cfg (stream.length + 2) 0 stream ⟨[], 0, 1⟩

/-- The in-order delivery schedule. -/
def schedId : Nat → List String → List String := fun _ c => c

/-- `WikiParser.parse_simple`: sequential mode reports each title's
outcome directly (a hanging pipeline call simply never returns). -/
def parse_simple (out : String → TOut) (stream : List String) : List Ev :=
  (stream.map (fun t =>
    match out t with
    | .okA r => [Ev.added t r]
    | .emptyA => [Ev.emptyE t]
    | .convA => [Ev.failedE t]
    | .hangA => [])).flatten

/-! ## Supporting lemmas -/

/-- A list is a Boolean prefix of itself followed by anything. -/
theorem isPrefixOf_self_append (l r : List Char) : l.isPrefixOf (l ++ r) = true := by
  induction l with
  | nil => simp [List.isPrefixOf]
  | cons c cs ih => simp [List.isPrefixOf, ih]

/-- `dropWhile` jumps over a block that satisfies the predicate. -/
theorem dropWhile_append_all {p : Char → Bool} (ws l : List Char)
    (h : ∀ c ∈ ws, p c = true) : (ws ++ l).dropWhile p = l.dropWhile p := by
  induction ws with
  | nil => rfl
  | cons c cs ih =>
    simp only [List.cons_append, List.dropWhile_cons, h c (List.mem_cons_self c cs)]
    exact ih (fun x hx => h x (List.mem_cons_of_mem c hx))

/-- No alias matches: `parse_redirect` returns `None`. -/
theorem parse_redirect_no_match (aliases : List PyStr) (text : PyStr)
    (h : ∀ a ∈ aliases, aliasMatches a text = false) :
    parse_redirect aliases text = .ok none := by
  induction aliases with
  | nil => rfl
  | cons a rest ih =>
    simp only [parse_redirect, h a (List.mem_cons_self a rest), Bool.false_eq_true, if_false]
    exact ih (fun b hb => h b (List.mem_cons_of_mem a hb))

/-- The first matching alias wins: `parse_redirect` runs its body for it. -/
theorem parse_redirect_first_match (text : PyStr) :
    ∀ (pre : List PyStr) (a : PyStr) (post : List PyStr),
      (∀ b ∈ pre, aliasMatches b text = false) → aliasMatches a text = true →
      parse_redirect (pre ++ a :: post) text = redirectOfAlias a text := by
  intro pre
  induction pre with
  | nil =>
    intro a post hpre ha
    simp [parse_redirect, ha]
  | cons b pre ih =>
    intro a post hpre ha
    simp only [List.cons_append, parse_redirect, hpre b (List.mem_cons_self b pre),
      Bool.false_eq_true, if_false]
    exact ih a post (fun x hx => hpre x (List.mem_cons_of_mem b hx)) ha

/-- A missing `[[` or `]]` raises `BadRedirect` carrying the remainder. -/
theorem redirectOfAlias_missing (a text : PyStr)
    (h : strFind obrk (pyLstrip (text.drop a.length)) = none ∨
         strFind cbrk (pyLstrip (text.drop a.length)) = none) :
    redirectOfAlias a text = .error (pyLstrip (text.drop a.length)) := by
  rcases h with h | h
  · simp [redirectOfAlias, h]
  · cases hb : strFind obrk (pyLstrip (text.drop a.length)) with
    | none => simp [redirectOfAlias, hb]
    | some b => simp [redirectOfAlias, hb, h]

/-- `[[` is found at position 0 of a remainder that starts with it. -/
theorem strFind_obrk_at0 (r : PyStr) : strFind obrk ('[' :: '[' :: r) = some 0 := by
  simp [strFind, obrk, List.isPrefixOf]

/-- `]]` is found at position 2 of a remainder of the form `[[]]...`. -/
theorem strFind_cbrk_at2 (r : PyStr) :
    strFind cbrk ('[' :: '[' :: ']' :: ']' :: r) = some 2 := by
  have h1 : ((']' : Char) == '[') = false := by decide
  have h2 : ((']' : Char) == ']') = true := by decide
  simp [strFind, cbrk, List.isPrefixOf, h1, h2]

/-- A nonempty character list is not `isEmpty`. -/
theorem isEmpty_false_of_ne_nil (l : PyStr) (h : l ≠ []) : l.isEmpty = false := by
  cases l with
  | nil => exact absurd rfl h
  | cons c cs => rfl

/-! ## Claims C3 and C9: the redirect resolver -/

/-- C3: for every text and alias sequence, if no alias matches (exactly or
against the upper-cased text) the result is `None`, not an error; the
first matching alias is stripped together with following whitespace and
the target is taken strictly between the first `[[` and the first `]]`
of the remainder, so `#REDIRECT [[Target]]` yields `Target`; a remainder
without `[[` or without `]]` raises `BadRedirect` carrying that
remainder. -/
theorem parse_redirect_correct (aliases : List PyStr) (text : PyStr) :
    ((∀ a ∈ aliases, aliasMatches a text = false) → parse_redirect aliases text = .ok none)
    ∧ (∀ pre a post, aliases = pre ++ a :: post →
        (∀ b ∈ pre, aliasMatches b text = false) → aliasMatches a text = true →
        parse_redirect aliases text = redirectOfAlias a text)
    ∧ (∀ a, strFind obrk (pyLstrip (text.drop a.length)) = none ∨
            strFind cbrk (pyLstrip (text.drop a.length)) = none →
        redirectOfAlias a text = .error (pyLstrip (text.drop a.length)))
    ∧ parse_redirect [pystr "#REDIRECT"] (pystr "#REDIRECT [[Target]]") =
        .ok (some (pystr "Target"))
    ∧ parse_redirect [pystr "#REDIRECT"] (pystr "#REDIRECT [[Target") =
        .error (pystr "[[Target") := by
  refine ⟨parse_redirect_no_match aliases text, ?_, ?_, by decide, by decide⟩
  · intro pre a post heq hpre ha
    rw [heq]
    exact parse_redirect_first_match text pre a post hpre ha
  · intro a h
    exact redirectOfAlias_missing a text h

/-- Witness for C3 at concrete inputs. -/
theorem parse_redirect_correct_witness :
    parse_redirect [pystr "#REDIRECT"] (pystr "plain text") = .ok none ∧
    parse_redirect [pystr "#PATRZ", pystr "#REDIRECT"] (pystr "#REDIRECT[[Zmora]]") =
      redirectOfAlias (pystr "#REDIRECT") (pystr "#REDIRECT[[Zmora]]") := by
  constructor
  · exact (parse_redirect_correct [pystr "#REDIRECT"] (pystr "plain text")).1 (by decide)
  · exact (parse_redirect_correct [pystr "#PATRZ", pystr "#REDIRECT"]
      (pystr "#REDIRECT[[Zmora]]")).2.1 [pystr "#PATRZ"] (pystr "#REDIRECT") [] rfl
      (by decide) (by decide)

/-- C9: an input whose text is a redirect alias followed by whitespace and
an empty bracketed target (`#REDIRECT [[]]` shaped) makes
`parse_redirect` return the empty string and `get_redirect` return a
falsy value, so the title enters the normal parse-and-render path —
neither a redirect record nor a `BadRedirect` — but in the frozen source
the render call itself raises `TypeError` (three arguments against the
one-parameter `mwaardhtmlwriter.convert`), which the wrapper turns into
the uniform `ConvertError`: the title is reported as failed, not
rendered as a normal article. -/
theorem empty_redirect_target_failed_article {τ : Type}
    (reader : String → Option PyStr) (sz : String → Nat)
    (aliases pre post : List PyStr) (a ws rest text : PyStr)
    (fq : PyStr → PyStr) (parseTree : String → PyStr → Except String τ)
    (filters : String → String)
    (title : String) (tree : τ)
    (halias : aliases = pre ++ a :: post)
    (hpre : ∀ b ∈ pre, aliasMatches b text = false)
    (htext : text = a ++ ws ++ obrk ++ cbrk ++ rest)
    (hws : ∀ c ∈ ws, c.isWhitespace = true)
    (hreader : reader title = some text)
    (hparse : parseTree title text = .ok tree) :
    parse_redirect aliases text = .ok (some [])
    ∧ get_redirect fq aliases text = .ok (some [])
    ∧ convertBodySrc reader sz aliases fq parseTree filters title =
        .error (.renderFailure "TypeError: convert() takes exactly 1 argument (3 given)")
    ∧ convertSrc reader sz aliases fq parseTree filters title =
        .error (.convertError title) := by
  have hmatch : aliasMatches a text = true := by
    simp [aliasMatches, htext, isPrefixOf_self_append]
  have hdrop : text.drop a.length = ws ++ (obrk ++ (cbrk ++ rest)) := by
    rw [htext, List.append_assoc, List.append_assoc, List.append_assoc, List.drop_left]
  have hlstrip : pyLstrip (text.drop a.length) = '[' :: '[' :: ']' :: ']' :: rest := by
    rw [pyLstrip, hdrop, dropWhile_append_all ws (obrk ++ (cbrk ++ rest)) hws]
    show List.dropWhile Char.isWhitespace ('[' :: '[' :: ']' :: ']' :: rest) = _
    rw [List.dropWhile_cons]
    simp
  have hro : redirectOfAlias a text = .ok (some []) := by
    rw [redirectOfAlias]
    simp only [hlstrip, strFind_obrk_at0, strFind_cbrk_at2]
    simp
  have hpr : parse_redirect aliases text = .ok (some []) := by
    rw [halias, parse_redirect_first_match text pre a post hpre hmatch, hro]
  have hgr : get_redirect fq aliases text = .ok (some []) := by
    simp [get_redirect, hpr, pyTruthyOpt, pyTruthyStr, List.isEmpty]
  have hne : text ≠ [] := by
    rw [htext]
    intro hc
    have hlen := congrArg List.length hc
    simp [obrk, cbrk] at hlen
  have hem : text.isEmpty = false := isEmpty_false_of_ne_nil text hne
  have hb : convertBodySrc reader sz aliases fq parseTree filters title =
      .error (.renderFailure "TypeError: convert() takes exactly 1 argument (3 given)") := by
    simp [convertBodySrc, hreader, hem, hgr, hparse, pyTruthyOpt, pyTruthyStr,
      writerConvertCallSrc]
  refine ⟨hpr, hgr, hb, ?_⟩
  simp [convertSrc, hb]

/-- Witness for C9 at a concrete article whose text is `#REDIRECT [[]]`. -/
theorem empty_redirect_target_failed_article_witness :
    parse_redirect [pystr "#REDIRECT"] (pystr "#REDIRECT [[]]") = .ok (some [])
    ∧ get_redirect id [pystr "#REDIRECT"] (pystr "#REDIRECT [[]]") = .ok (some [])
    ∧ convertBodySrc (τ := Unit) (fun _ => some (pystr "#REDIRECT [[]]")) (fun _ => 14)
        [pystr "#REDIRECT"] id (fun _ _ => .ok ()) id "T" =
        .error (.renderFailure "TypeError: convert() takes exactly 1 argument (3 given)")
    ∧ convertSrc (τ := Unit) (fun _ => some (pystr "#REDIRECT [[]]")) (fun _ => 14)
        [pystr "#REDIRECT"] id (fun _ _ => .ok ()) id "T" =
        .error (.convertError "T") :=
  empty_redirect_target_failed_article (τ := Unit)
    (fun _ => some (pystr "#REDIRECT [[]]")) (fun _ => 14)
    [pystr "#REDIRECT"] [] [] (pystr "#REDIRECT") [' '] [] (pystr "#REDIRECT [[]]")
    id (fun _ _ => .ok ()) id "T" ()
    rfl (by decide) (by decide) (by decide) rfl rfl

/-! ## Claims C1 and C2: the pooled scheduler loses titles -/

/-- C1: in pooled mode a chunk whose every dispatched title raises (here
`t1` with chunk size 1) leaves `iter_count` at zero, so the outer loop
stops and `t2` — inside the requested slice, with no article-count limit
set — is never dispatched and never reported: the exactly-once guarantee
fails, while sequential mode reports both titles exactly once. -/
theorem parse_mp_drops_titles_after_allfailed_chunk :
    parse_mp (fun t => if t = "t2" then TOut.okA false else TOut.convA) schedId
        ⟨1, 0, 0⟩ ["t1", "t2"] =
      ({ evs := [Ev.failedE "t1"], realCount := 0, iterCount := 0 }, false, ["t1"])
    ∧ parse_simple (fun t => if t = "t2" then TOut.okA false else TOut.convA) ["t1", "t2"] =
      [Ev.failedE "t1", Ev.added "t2" false] := by decide

/-- C2: a single-title chunk whose worker hangs: the scheduler reports the
timeout event (with the active-worker count), recreates the pool and
re-runs `imap_unordered` over the already exhausted chunk iterator, so
the hanging title `h` — consumed by the terminated pool — is never
redispatched: the run ends with only the timeout event reported and `h`
is never reported as added, empty or failed. -/
theorem parse_mp_timeout_loses_title :
    parse_mp (fun _ => TOut.hangA) schedId ⟨1, 0, 3⟩ ["h"] =
      ({ evs := [Ev.timedout 3], realCount := 0, iterCount := 0 }, false, ["h"]) := by decide

/-! ## Claim C5: reference list for an absent group -/

/-- C5: `xwriteReferenceList` renders nothing when no references at all
were collected, but when the collected-reference map is nonempty and the
requested group key is absent, `references.pop(group)` raises `KeyError`
(`defaultdict.pop` does not consult the default factory), contradicting
the never-raise claim. -/
theorem xwriteReferenceList_keyerror :
    xwriteReferenceList ⟨[("a", [⟨"a", none⟩])], []⟩ "" = .error ""
    ∧ xwriteReferenceList emptyWriterSt "" = .ok (.noOutput, emptyWriterSt) := by decide

/-! ## Claim C7: class-based element suppression -/

/-- C7: the writer consults only the built-in `EXCLUDE_CLASSES`: an
element whose only class is a configured-but-not-built-in class (here
`foo`) is rendered with its children even though the spec's union rule
would suppress it, while a `navbox` class suppresses the element and all
descendants regardless of configuration. -/
theorem class_exclusion_builtin_only :
    classExcludedSpec ["foo"] "foo" = true
    ∧ classExcluded "foo" = false
    ∧ renderNode (.elem "foo" [.text "x"]) = ["x"]
    ∧ classExcluded "navbox other" = true
    ∧ renderNode (.elem "navbox other" [.text "x"]) = [] := by decide

/-! ## Claims C4 and C10: the pipeline wrapper -/

/-- The body of `convert` raises `EmptyArticleError` only with the
processed title. -/
theorem convertBody_empty_title {τ : Type} (reader : String → Option PyStr) (sz : String → Nat)
    (aliases : List PyStr) (fq : PyStr → PyStr)
    (parseTree : String → PyStr → Except String τ) (render : τ → String × List LangLink)
    (filters : String → String) (title : String) (t : String)
    (h : convertBody reader sz aliases fq parseTree render filters title =
      .error (.emptyArticle t)) : t = title := by
  simp only [convertBody] at h
  split at h
  · simp_all
  · split at h
    · simp_all
    · split at h
      · simp_all
      · split at h
        · simp_all [mkredirect]
        · split at h
          · simp_all
          · simp_all

/-- A successful `convertBody` result that is not a redirect carries the
literal empty tag list of the article renderer. -/
theorem convertBody_ok_tags {τ : Type} (reader : String → Option PyStr) (sz : String → Nat)
    (aliases : List PyStr) (fq : PyStr → PyStr)
    (parseTree : String → PyStr → Except String τ) (render : τ → String × List LangLink)
    (filters : String → String) (title : String) (r : ConvOk)
    (hb : convertBody reader sz aliases fq parseTree render filters title = .ok r)
    (hred : r.isRedirect = false) : r.tags = [] := by
  simp only [convertBody] at hb
  split at hb
  · simp_all
  · split at hb
    · simp_all
    · split at hb
      · simp_all
      · split at hb
        · simp only [Except.ok.injEq] at hb
          rw [← hb] at hred
          simp [mkredirect] at hred
        · split at hb
          · simp_all
          · simp only [Except.ok.injEq] at hb
            rw [← hb]
            rfl

/-- C4: a missing or empty raw text raises `EmptyArticleError` (reported
as empty, distinct from failure); every other error leaving `convert` —
including a malformed-redirect `BadRedirect` — is the single uniform
`ConvertError` carrying the title, never the original exception. -/
theorem convert_error_taxonomy {τ : Type} (reader : String → Option PyStr) (sz : String → Nat)
    (aliases : List PyStr) (fq : PyStr → PyStr)
    (parseTree : String → PyStr → Except String τ) (render : τ → String × List LangLink)
    (filters : String → String) (title : String) :
    ((reader title = none ∨ reader title = some []) →
      convert reader sz aliases fq parseTree render filters title = .error (.emptyArticle title))
    ∧ (∀ e, convert reader sz aliases fq parseTree render filters title = .error e →
        e = .emptyArticle title ∨ e = .convertError title)
    ∧ (∀ text s, reader title = some text → text ≠ [] →
        get_redirect fq aliases text = .error s →
        convert reader sz aliases fq parseTree render filters title =
          .error (.convertError title)) := by
  refine ⟨?_, ?_, ?_⟩
  · rintro (h | h) <;> simp [convert, convertBody, h]
  · intro e he
    simp only [convert] at he
    cases hb : convertBody reader sz aliases fq parseTree render filters title with
    | ok r => rw [hb] at he; simp at he
    | error ex =>
      rw [hb] at he
      cases ex with
      | emptyArticle t =>
        simp only [Except.error.injEq] at he
        left
        rw [← he, convertBody_empty_title reader sz aliases fq parseTree render filters title t hb]
      | convertError t => simp only [Except.error.injEq] at he; right; rw [← he]
      | badRedirect s => simp only [Except.error.injEq] at he; right; rw [← he]
      | renderFailure m => simp only [Except.error.injEq] at he; right; rw [← he]
  · intro text s hr hne hg
    have hb : convertBody reader sz aliases fq parseTree render filters title =
        .error (.badRedirect s) := by
      simp [convertBody, hr, isEmpty_false_of_ne_nil text hne, hg]
    simp [convert, hb]

/-- Witness for C4: an absent raw text is reported as an empty article. -/
theorem convert_error_taxonomy_witness :
    convert (τ := Unit) (fun _ => none) (fun _ => 0) [] id (fun _ _ => .ok ())
      (fun _ => ("", [])) id "T" = .error (.emptyArticle "T") :=
  (convert_error_taxonomy (τ := Unit) (fun _ => none) (fun _ => 0) [] id (fun _ _ => .ok ())
    (fun _ => ("", [])) id "T").1 (Or.inl rfl)

/-- C10: the article renderer's `convert` returns the literal empty tag
list, so every non-redirect conversion result of the pipeline carries an
empty tag component. -/
theorem tags_always_empty :
    (∀ (τ : Type) (render : τ → String × List LangLink) (obj : τ),
      (Writer.convert render obj).2.1 = ([] : List String))
    ∧ (∀ (τ : Type) (reader : String → Option PyStr) (sz : String → Nat)
        (aliases : List PyStr) (fq : PyStr → PyStr)
        (parseTree : String → PyStr → Except String τ) (render : τ → String × List LangLink)
        (filters : String → String) (title : String) (r : ConvOk),
        convert reader sz aliases fq parseTree render filters title = .ok r →
        r.isRedirect = false → r.tags = []) := by
  constructor
  · intro τ render obj; rfl
  · intro τ reader sz aliases fq parseTree render filters title r hok hred
    simp only [convert] at hok
    cases hb : convertBody reader sz aliases fq parseTree render filters title with
    | ok v =>
      rw [hb] at hok
      simp only [Except.ok.injEq] at hok
      rw [← hok] at hred ⊢
      exact convertBody_ok_tags reader sz aliases fq parseTree render filters title v hb hred
    | error ex =>
      rw [hb] at hok
      cases ex <;> simp at hok

/-- Witness for C10 at a concrete successful non-redirect conversion. -/
theorem tags_always_empty_witness :
    convert (τ := Unit) (fun _ => some (pystr "x")) (fun _ => 3) [] id (fun _ _ => .ok ())
      (fun _ => ("y", [])) id "T" =
      .ok { title := "T", text := "y", tags := [], redirectTarget := none,
            isRedirect := false, langlinks := [], size := 3 }
    ∧ ({ title := "T", text := "y", tags := [], redirectTarget := none,
         isRedirect := false, langlinks := [], size := 3 } : ConvOk).tags = [] :=
  ⟨by decide,
   tags_always_empty.2 Unit (fun _ => some (pystr "x")) (fun _ => 3) [] id (fun _ _ => .ok ())
     (fun _ => ("y", [])) id "T"
     { title := "T", text := "y", tags := [], redirectTarget := none,
       isRedirect := false, langlinks := [], size := 3 } (by decide) rfl⟩

/-! ## Claim C6: reference numbering -/

/-- Looking a key up right after setting it yields the set value. -/
theorem alistGet_set_self {α : Type} (m : List (String × α)) (k : String) (v : α) :
    alistGet (alistSet m k v) k = some v := by
  induction m with
  | nil => simp [alistSet, alistGet]
  | cons p rest ih =>
    obtain ⟨q, w⟩ := p
    by_cases h : q = k
    · simp [alistSet, alistGet, h]
    · simp [alistSet, alistGet, h, ih]

/-- C6: unnamed references in a group get consecutive 1-based sequence
numbers (two registrations in group `''` yield 1 and 2); a named
reference's first registration records its list position with occurrence
count 1 and a backlink id ending in occurrence index 0; every later
registration under the same name reuses the first-occurrence number, its
backlink id carries the occurrence count before the increment, and the
stored count increments (so registering `x` twice gives counts 1 then 2). -/
theorem xwriteReference_numbering :
    ((xwriteReference emptyWriterSt ⟨"", none⟩).1.seq = 1
      ∧ (xwriteReference (xwriteReference emptyWriterSt ⟨"", none⟩).2 ⟨"", none⟩).1.seq = 2)
    ∧ (∀ (st : WriterSt) (group nm rn : String),
        refNameOf ⟨group, some nm⟩ = some rn →
        alistGet ((alistGet st.namedrefs group).getD []) rn = none →
        (xwriteReference st ⟨group, some nm⟩).1.seq
            = ((alistGet st.references group).getD []).length + 1
        ∧ (xwriteReference st ⟨group, some nm⟩).1.refid
            = "_r" ++ mknoteid group ((xwriteReference st ⟨group, some nm⟩).1.seq)
                ++ "_" ++ toString 0
        ∧ alistGet ((alistGet (xwriteReference st ⟨group, some nm⟩).2.namedrefs group).getD []) rn
            = some ((xwriteReference st ⟨group, some nm⟩).1.seq, 1))
    ∧ (∀ (st : WriterSt) (group nm rn : String) (f c : Nat),
        refNameOf ⟨group, some nm⟩ = some rn →
        alistGet ((alistGet st.namedrefs group).getD []) rn = some (f, c) →
        (xwriteReference st ⟨group, some nm⟩).1.seq = f
        ∧ (xwriteReference st ⟨group, some nm⟩).1.refid
            = "_r" ++ mknoteid group f ++ "_" ++ toString c
        ∧ alistGet ((alistGet (xwriteReference st ⟨group, some nm⟩).2.namedrefs group).getD []) rn
            = some (f, c + 1))
    ∧ ((xwriteReference emptyWriterSt ⟨"", some "x"⟩).1.seq = 1
      ∧ (xwriteReference (xwriteReference emptyWriterSt ⟨"", some "x"⟩).2 ⟨"", some "x"⟩).1.seq = 1
      ∧ (xwriteReference emptyWriterSt ⟨"", some "x"⟩).1.refid = "_r_n_1_0"
      ∧ (xwriteReference (xwriteReference emptyWriterSt ⟨"", some "x"⟩).2
          ⟨"", some "x"⟩).1.refid = "_r_n_1_1"
      ∧ alistGet ((alistGet (xwriteReference (xwriteReference emptyWriterSt ⟨"", some "x"⟩).2
          ⟨"", some "x"⟩).2.namedrefs "").getD []) "x" = some (1, 2)) := by
  refine ⟨by decide, ?_, ?_, by decide⟩
  · intro st group nm rn h1 h2
    refine ⟨?_, ?_, ?_⟩
    · simp [xwriteReference, h1, h2]
    · simp [xwriteReference, h1, h2]
    · simp [xwriteReference, h1, h2, alistGet_set_self]
  · intro st group nm rn f c h1 h2
    refine ⟨?_, ?_, ?_⟩
    · simp [xwriteReference, h1, h2]
    · simp [xwriteReference, h1, h2]
    · simp [xwriteReference, h1, h2, alistGet_set_self]

/-- Witness for C6: re-registering named reference `x` when the stored
entry is (first occurrence 1, count 1). -/
theorem xwriteReference_numbering_witness :
    (xwriteReference ⟨[("", [⟨"", some "x"⟩])], [("", [("x", (1, 1))])]⟩ ⟨"", some "x"⟩).1.seq = 1
    ∧ (xwriteReference ⟨[("", [⟨"", some "x"⟩])], [("", [("x", (1, 1))])]⟩
        ⟨"", some "x"⟩).1.refid = "_r" ++ mknoteid "" 1 ++ "_" ++ toString 1
    ∧ alistGet ((alistGet (xwriteReference ⟨[("", [⟨"", some "x"⟩])], [("", [("x", (1, 1))])]⟩
        ⟨"", some "x"⟩).2.namedrefs "").getD []) "x" = some (1, 2) :=
  xwriteReference_numbering.2.2.1 ⟨[("", [⟨"", some "x"⟩])], [("", [("x", (1, 1))])]⟩
    "" "x" "x" 1 1 (by decide) (by decide)

/-! ## Claim C8: early termination at the requested article count -/

/-- `stepResult` on a non-redirect result with a limit set. -/
theorem stepResult_ok (K : Nat) (hK : K ≠ 0) (st : SchedSt) (t : String) :
    stepResult K st t false =
      ({ evs := st.evs ++ [.added t false], realCount := st.realCount + 1,
         iterCount := st.iterCount + 1 }, decide (K ≤ st.realCount + 1)) := by
  simp [stepResult, hK]

/-- When nothing hangs, every result is delivered. -/
theorem filter_deliverable_all_ok (out : String → TOut) (hout : ∀ t, out t = TOut.okA false)
    (l : List String) : l.filter (deliverable out) = l := by
  induction l with
  | nil => rfl
  | cons t ts ih => simp [List.filter_cons, deliverable, isHang, hout t, ih]

/-- When nothing hangs, no timeout fires. -/
theorem any_isHang_false (out : String → TOut) (hout : ∀ t, out t = TOut.okA false)
    (l : List String) : l.any (isHang out) = false := by
  induction l with
  | nil => rfl
  | cons t ts ih => simp [List.any_cons, isHang, hout t, ih]

/-- Inner loop over all-successful non-redirect results, not reaching the
limit: every result is reported and counted. -/
theorem runInner_allok_lt (out : String → TOut) (hout : ∀ t, out t = TOut.okA false)
    (K : Nat) (hK : K ≠ 0) :
    ∀ (l : List String) (st : SchedSt), st.realCount + l.length < K →
      runInner out K l st =
        ({ evs := st.evs ++ l.map (fun t => Ev.added t false),
           realCount := st.realCount + l.length,
           iterCount := st.iterCount + l.length }, false) := by
  intro l
  induction l with
  | nil =>
    intro st h
    simp [runInner]
  | cons t ts ih =>
    intro st h
    have h' : st.realCount + (ts.length + 1) < K := by simpa using h
    have hd : decide (K ≤ st.realCount + 1) = false := by
      simp only [decide_eq_false_iff_not]
      omega
    simp only [runInner, hout t, stepResult_ok K hK, hd, Bool.false_eq_true, if_false]
    rw [ih { evs := st.evs ++ [Ev.added t false], realCount := st.realCount + 1,
             iterCount := st.iterCount + 1 } (show st.realCount + 1 + ts.length < K by omega)]
    simp only [List.map_cons, List.length_cons, Prod.mk.injEq, SchedSt.mk.injEq]
    refine ⟨⟨?_, ?_, ?_⟩, trivial⟩
    · simp [List.append_assoc]
    · omega
    · omega

/-- Inner loop over all-successful non-redirect results reaching the
limit: it reports exactly the results needed to reach the limit and
returns early. -/
theorem runInner_allok_ge (out : String → TOut) (hout : ∀ t, out t = TOut.okA false)
    (K : Nat) (hK : K ≠ 0) :
    ∀ (l : List String) (st : SchedSt), st.realCount < K → K ≤ st.realCount + l.length →
      runInner out K l st =
        ({ evs := st.evs ++ (l.take (K - st.realCount)).map (fun t => Ev.added t false),
           realCount := K,
           iterCount := st.iterCount + (K - st.realCount) }, true) := by
  intro l
  induction l with
  | nil =>
    intro st h1 h2
    exact absurd h2 (by simp; omega)
  | cons t ts ih =>
    intro st h1 h2
    have h2' : K ≤ st.realCount + (ts.length + 1) := by simpa using h2
    by_cases hstop : K ≤ st.realCount + 1
    · have hkk : K = st.realCount + 1 := by omega
      have hd : decide (K ≤ st.realCount + 1) = true := by simpa using hstop
      have ht : K - st.realCount = 1 := by omega
      simp only [runInner, hout t, stepResult_ok K hK, hd, if_true]
      rw [ht]
      simp [hkk]
    · have hd : decide (K ≤ st.realCount + 1) = false := by
        simp only [decide_eq_false_iff_not]
        omega
      simp only [runInner, hout t, stepResult_ok K hK, hd, Bool.false_eq_true, if_false]
      rw [ih { evs := st.evs ++ [Ev.added t false], realCount := st.realCount + 1,
               iterCount := st.iterCount + 1 } (show st.realCount + 1 < K by omega)
            (show K ≤ st.realCount + 1 + ts.length by omega)]
      have ht : K - st.realCount = (K - (st.realCount + 1)) + 1 := by omega
      rw [ht, List.take_succ_cons]
      simp only [List.map_cons, Prod.mk.injEq, SchedSt.mk.injEq]
      refine ⟨⟨?_, trivial, ?_⟩, trivial⟩
      · simp [List.append_assoc]
      · omega

/-- The outer loop of `parse_mp` with a requested article count `K`, when
every pipeline outcome is a successful non-redirect article: it keeps
dispatching chunks until exactly `K` additions have been reported, then
terminates the pool and returns without dispatching further chunks. -/
theorem runOuter_allok (out : String → TOut) (sched : Nat → List String → List String)
    (hout : ∀ t, out t = TOut.okA false) (hsched : ∀ n c, (sched n c).Perm c)
    (m K aN : Nat) (hm : 1 ≤ m) (hK : 1 ≤ K) :
    ∀ (fuel n : Nat) (stream : List String) (st : SchedSt),
      stream.length + 2 ≤ fuel → st.iterCount ≠ 0 → st.realCount < K →
      K ≤ st.realCount + stream.length →
      st.evs.length = st.realCount →
      (∀ e ∈ st.evs, ∃ t, e = Ev.added t false) →
      (runOuter out sched ⟨m, K, aN⟩ fuel n stream st).1.evs.length = K
      ∧ (∀ e ∈ (runOuter out sched ⟨m, K, aN⟩ fuel n stream st).1.evs, ∃ t, e = Ev.added t false)
      ∧ (runOuter out sched ⟨m, K, aN⟩ fuel n stream st).2.1 = true
      ∧ (runOuter out sched ⟨m, K, aN⟩ fuel n stream st).2.2.length + st.realCount
          ≤ K - 1 + m := by
  intro fuel
  induction fuel with
  | zero =>
    intro n stream st hfuel
    omega
  | succ fuel ih =>
    intro n stream st hfuel hiter hrc hsup hlen hall
    have hslen : 1 ≤ stream.length := by omega
    have hclen : (stream.take m).length = min m stream.length := by
      simp [List.length_take]
    have hc1 : 1 ≤ (stream.take m).length := by
      rw [hclen]; omega
    have hsplit : (stream.take m).length + (stream.drop m).length = stream.length := by
      rw [← List.length_append, List.take_append_drop]
    have hplen : (sched n (stream.take m)).length = (stream.take m).length :=
      (hsched n (stream.take m)).length_eq
    simp only [runOuter, if_neg hiter,
      filter_deliverable_all_ok out hout, any_isHang_false out hout,
      Bool.false_eq_true, if_false]
    have hcm : (stream.take m).length ≤ m := by
      rw [hclen]; exact min_le_left m stream.length
    by_cases hcase : st.realCount + (stream.take m).length < K
    · have hinner := runInner_allok_lt out hout K (by omega) (sched n (stream.take m))
        { st with iterCount := 0 } (by simpa [hplen] using hcase)
      rw [hinner]
      dsimp only
      simp only [Bool.false_eq_true, if_false]
      have hrec := ih (n + 1) (stream.drop m)
        { evs := st.evs ++ (sched n (stream.take m)).map (fun t => Ev.added t false),
          realCount := st.realCount + (sched n (stream.take m)).length,
          iterCount := 0 + (sched n (stream.take m)).length }
        (by rw [List.length_drop]; omega)
        (by show 0 + (sched n (stream.take m)).length ≠ 0; omega)
        (by show st.realCount + (sched n (stream.take m)).length < K; omega)
        (by
          show K ≤ st.realCount + (sched n (stream.take m)).length + (stream.drop m).length
          omega)
        (by
          show (st.evs ++ (sched n (stream.take m)).map (fun t => Ev.added t false)).length
            = st.realCount + (sched n (stream.take m)).length
          simp [List.length_append, List.length_map, hlen])
        (by
          intro e he
          rcases List.mem_append.mp he with h | h
          · exact hall e h
          · rcases List.mem_map.mp h with ⟨t, _, rfl⟩
            exact ⟨t, rfl⟩)
      refine ⟨hrec.1, hrec.2.1, hrec.2.2.1, ?_⟩
      have h4 := hrec.2.2.2
      dsimp only at h4
      rw [List.length_append]
      omega
    · have hcase2 : K ≤ st.realCount + (sched n (stream.take m)).length := by
        rw [hplen]; omega
      have hinner := runInner_allok_ge out hout K (by omega) (sched n (stream.take m))
        { st with iterCount := 0 } hrc hcase2
      rw [hinner]
      dsimp only
      simp only [if_true]
      have hmin : min (K - st.realCount) (sched n (stream.take m)).length
          = K - st.realCount := by
        rw [min_eq_left]; omega
      refine ⟨?_, ?_, trivial, ?_⟩
      · simp only [List.length_append, List.length_map, List.length_take, hmin]
        omega
      · intro e he
        rcases List.mem_append.mp he with h | h
        · exact hall e h
        · rcases List.mem_map.mp h with ⟨t, _, rfl⟩
          exact ⟨t, rfl⟩
      · omega

/-- C8: in pooled mode with a requested article count `K` set (and a
stream of at least `K` successfully converting non-redirect titles), the
scheduler reports exactly `K` non-redirect added articles — no other
events — returns early through the pool-terminating limit branch, and
dispatches no chunk beyond the one in which the `K`-th addition arrived
(at most `K - 1 + chunkSize` titles are ever dispatched), even though
more titles remain in the stream. -/
theorem parse_mp_early_termination (out : String → TOut)
    (sched : Nat → List String → List String) (m K aN : Nat) (stream : List String)
    (hout : ∀ t, out t = TOut.okA false)
    (hsched : ∀ n c, (sched n c).Perm c)
    (hm : 1 ≤ m) (hK : 1 ≤ K) (hstream : K ≤ stream.length) :
    (parse_mp out sched ⟨m, K, aN⟩ stream).1.evs.length = K
    ∧ (∀ e ∈ (parse_mp out sched ⟨m, K, aN⟩ stream).1.evs, ∃ t, e = Ev.added t false)
    ∧ (parse_mp out sched ⟨m, K, aN⟩ stream).2.1 = true
    ∧ (parse_mp out sched ⟨m, K, aN⟩ stream).2.2.length ≤ K - 1 + m := by
  have h := runOuter_allok out sched hout hsched m K aN hm hK (stream.length + 2) 0 stream
    ⟨[], 0, 1⟩ (by omega) (by decide)
    (show (0 : Nat) < K by omega)
    (show K ≤ 0 + stream.length by omega)
    rfl
    (by intro e he; simp at he)
  refine ⟨?_, ?_, ?_, ?_⟩
  · simpa [parse_mp] using h.1
  · simpa [parse_mp] using h.2.1
  · simpa [parse_mp] using h.2.2.1
  · simpa [parse_mp] using h.2.2.2

/-- Witness for C8: chunk size 1, limit 2, three all-successful titles:
two additions are reported, the run returns early, and at most two
titles are dispatched. -/
theorem parse_mp_early_termination_witness :
    (parse_mp (fun _ => TOut.okA false) schedId ⟨1, 2, 0⟩ ["a", "b", "c"]).1.evs.length = 2
    ∧ (∀ e ∈ (parse_mp (fun _ => TOut.okA false) schedId ⟨1, 2, 0⟩ ["a", "b", "c"]).1.evs,
        ∃ t, e = Ev.added t false)
    ∧ (parse_mp (fun _ => TOut.okA false) schedId ⟨1, 2, 0⟩ ["a", "b", "c"]).2.1 = true
    ∧ (parse_mp (fun _ => TOut.okA false) schedId ⟨1, 2, 0⟩ ["a", "b", "c"]).2.2.length
        ≤ 2 - 1 + 1 :=
  parse_mp_early_termination (fun _ => TOut.okA false) schedId 1 2 0 ["a", "b", "c"]
    (fun _ => rfl) (fun _ c => List.Perm.refl c) (by decide) (by decide) (by decide)
